import Mathlib

/-!
# Verification of the potato-cloud deployment agent

A shallow embedding, in Lean 4, of the parts of the `potato-cloud-agent`
repository that the specification's testable claims are about:

* the port-pair allocator (`internal/container/port.go`),
* the blue/green deployer (`internal/service` manager, the
  `blueGreenDeploy` / `StopService` paths),
* the reconciliation loop (`cmd/agent/main.go`, `Agent.sync` and
  `Agent.Run`),
* the external reverse proxy (`internal/proxy/external.go`),
* the secret store (`agent/internal/secrets/manager.go`),
* language detection (`internal/container/generator.go`).

Pure functions of the Go source become Lean functions; stateful code
becomes explicit state passing; calls into external collaborators
(Docker, the network, the filesystem, git, the control plane) become
oracle parameters recording the result each call would return; fallible
code returns `Except`/`Option`.  Go maps are modelled as association
lists with unique keys; where Go's map iteration order can influence a
result, the iteration order is an explicit parameter and theorems
quantify over it.
-/

namespace PotatoCloud

/-- Association-list lookup (models Go `m[k]` with `ok` flag). -/
def lookupA {α : Type} (m : List (String × α)) (k : String) : Option α :=
  match m.find? (fun e => e.1 = k) with
  | some e => some e.2
  | none => none

/-- Association-list insert/replace (models Go `m[k] = v`). -/
def insertA {α : Type} (m : List (String × α)) (k : String) (v : α) :
    List (String × α) :=
  match m with
  | [] => [(k, v)]
  | e :: rest => if e.1 = k then (k, v) :: rest else e :: insertA rest k v

/-- Association-list erase (models Go `delete(m, k)`). -/
def eraseA {α : Type} (m : List (String × α)) (k : String) : List (String × α) :=
  m.filter (fun e => e.1 ≠ k)

theorem lookupA_insertA_self {α : Type} (m : List (String × α)) (k : String) (v : α) :
    lookupA (insertA m k v) k = some v := by
  induction m with
  | nil => simp [insertA, lookupA, List.find?]
  | cons e rest ih =>
    by_cases h : e.1 = k
    · simp [insertA, h, lookupA, List.find?]
    · simpa [insertA, h, lookupA, List.find?] using ih

theorem lookupA_insertA_ne {α : Type} (m : List (String × α)) (k k' : String) (v : α)
    (h : k ≠ k') : lookupA (insertA m k v) k' = lookupA m k' := by
  induction m with
  | nil => simp [insertA, lookupA, List.find?, h, Ne.symm h]
  | cons e rest ih =>
    by_cases he : e.1 = k
    · by_cases he' : e.1 = k'
      · exact absurd (he ▸ he') h
      · simp [insertA, he, lookupA, List.find?, he', h, Ne.symm h]
    · by_cases he' : e.1 = k'
      · simp [insertA, he, lookupA, List.find?, he', Ne.symm h]
      · simpa [insertA, he, lookupA, List.find?, he'] using ih

theorem mem_insertA {α : Type} (m : List (String × α)) (k : String) (v : α) :
    ∀ e ∈ insertA m k v, e = (k, v) ∨ e ∈ m := by
  induction m with
  | nil => intro e he; simpa [insertA] using he
  | cons f rest ih =>
    intro e he
    by_cases hf : f.1 = k
    · simp only [insertA, if_pos hf, List.mem_cons] at he
      rcases he with he | he
      · exact Or.inl he
      · exact Or.inr (List.mem_cons_of_mem _ he)
    · simp only [insertA, if_neg hf, List.mem_cons] at he
      rcases he with he | he
      · exact Or.inr (he ▸ List.mem_cons_self _ _)
      · rcases ih e he with h' | h'
        · exact Or.inl h'
        · exact Or.inr (List.mem_cons_of_mem _ h')

theorem mem_keys_insertA {α : Type} (m : List (String × α)) (k : String) (v : α)
    {x : String} (hx : x ∈ (insertA m k v).map Prod.fst) :
    x = k ∨ x ∈ m.map Prod.fst := by
  rcases List.mem_map.mp hx with ⟨e, he, rfl⟩
  rcases mem_insertA m k v e he with rfl | h
  · exact Or.inl rfl
  · exact Or.inr (List.mem_map_of_mem _ h)

theorem nodup_keys_insertA {α : Type} (m : List (String × α)) (k : String) (v : α)
    (h : (m.map Prod.fst).Nodup) : ((insertA m k v).map Prod.fst).Nodup := by
  induction m with
  | nil => simp [insertA]
  | cons f rest ih =>
    rcases List.nodup_cons.mp h with ⟨hf1, hrest⟩
    by_cases hf : f.1 = k
    · subst hf
      simp only [insertA, if_pos rfl, List.map_cons]
      exact List.nodup_cons.mpr ⟨hf1, hrest⟩
    · simp only [insertA, if_neg hf, List.map_cons]
      refine List.nodup_cons.mpr ⟨?_, ih hrest⟩
      intro hmem
      rcases mem_keys_insertA rest k v hmem with h' | h'
      · exact hf h'
      · exact hf1 h'

/-!
## Port allocator (`internal/container/port.go`)

`PortPair`, `PortManager`, `NewPortManager`, `Allocate`, `Get`, `Release`,
`Reserve`, `isPortAvailable`.  The `net.Listen` probe inside
`isPortAvailable` is an external observation; it is modelled by an oracle
`sysFree : Nat → Bool` which is `true` exactly when the Go probe would
report the port as usable (listen succeeded, or failed with `EPERM`).
Ports are naturals (they are non-negative in every reachable Go state).
-/

/-- `PortPair` from `internal/container/port.go`. -/
structure PortPair where
  BluePort : Nat
  GreenPort : Nat
deriving DecidableEq, Repr

/-- `PortManager`: configured range plus the `allocated` table
(`service ID -> port pair`). `stop` models the Go field `end`. -/
structure PortManager where
  start : Nat
  stop : Nat
  allocated : List (String × PortPair)
deriving DecidableEq, Repr

/-- `NewPortManager(start, end)`. -/
def NewPortManager (s e : Nat) : PortManager :=
  { start := s, stop := e, allocated := [] }

/-- `isPortAvailable`: the port is free in the allocation table and the
system probe (oracle) accepts it. -/
def isPortAvailable (allocated : List (String × PortPair)) (sysFree : Nat → Bool)
    (port : Nat) : Bool :=
  allocated.all (fun e => !(e.2.BluePort = port || e.2.GreenPort = port)) &&
    sysFree port

/-- The blue-port candidates visited by `Allocate`'s loop
`for bluePort := start; bluePort <= end-1; bluePort += 2`. -/
def allocCandidates (s e : Nat) : List Nat :=
  if s + 1 ≤ e then (List.range ((e - 1 - s) / 2 + 1)).map (fun i => s + 2 * i)
  else []

/-- `PortManager.Allocate(serviceID)`: return the existing pair if any,
else take the first candidate pair whose two consecutive ports are both
available, else fail. -/
def PortManager.Allocate (pm : PortManager) (sysFree : Nat → Bool)
    (serviceID : String) : Except String (PortPair × PortManager) :=
  match lookupA pm.allocated serviceID with
  | some pair => .ok (pair, pm)
  | none =>
    match (allocCandidates pm.start pm.stop).find?
        (fun b => isPortAvailable pm.allocated sysFree b &&
          isPortAvailable pm.allocated sysFree (b + 1)) with
    | some b =>
      let pair : PortPair := { BluePort := b, GreenPort := b + 1 }
      .ok (pair, { pm with allocated := insertA pm.allocated serviceID pair })
    | none => .error "no available port pairs in range"

/-- `PortManager.Get(serviceID)`. -/
def PortManager.Get (pm : PortManager) (serviceID : String) : Option PortPair :=
  lookupA pm.allocated serviceID

/-- `PortManager.Release(serviceID)`. -/
def PortManager.Release (pm : PortManager) (serviceID : String) : PortManager :=
  { pm with allocated := eraseA pm.allocated serviceID }

/-- The overlap test of `PortManager.Reserve`: any of the four port
equalities between an existing pair and the requested pair. -/
def pairsOverlap (a b : PortPair) : Bool :=
  a.BluePort = b.BluePort || a.GreenPort = b.GreenPort ||
    a.BluePort = b.GreenPort || a.GreenPort = b.BluePort

/-- `PortManager.Reserve(serviceID, pair)`: refuse on cross-service
overlap, otherwise install the pair as given. -/
def PortManager.Reserve (pm : PortManager) (serviceID : String) (pair : PortPair) :
    Except String PortManager :=
  if pm.allocated.any (fun e => e.1 ≠ serviceID && pairsOverlap e.2 pair) then
    .error "port pair conflict"
  else
    .ok { pm with allocated := insertA pm.allocated serviceID pair }

/-- One client-visible operation on the allocator. -/
inductive PortOp
  | allocate (sysFree : Nat → Bool) (serviceID : String)
  | reserve (serviceID : String) (pair : PortPair)
  | release (serviceID : String)

/-- Apply one operation; failed `Allocate`/`Reserve` leave the table as
they found it (as in the Go code). -/
def applyPortOp (pm : PortManager) : PortOp → PortManager
  | .allocate f id =>
    match pm.Allocate f id with
    | .ok (_, pm') => pm'
    | .error _ => pm
  | .reserve id p =>
    match pm.Reserve id p with
    | .ok pm' => pm'
    | .error _ => pm
  | .release id => pm.Release id

/-- Run a sequence of allocator operations. -/
def runPortOps (pm : PortManager) (ops : List PortOp) : PortManager :=
  ops.foldl applyPortOp pm

/-- The two-element port set of a pair, as a list. -/
def pairPorts (p : PortPair) : List Nat := [p.BluePort, p.GreenPort]

/-- Disjointness of the port sets of two table entries. -/
def entryDisjoint (a b : String × PortPair) : Prop :=
  ∀ x ∈ pairPorts a.2, x ∉ pairPorts b.2

instance : DecidableRel entryDisjoint := fun a b => by
  unfold entryDisjoint; infer_instance

theorem entryDisjoint_symm : Symmetric entryDisjoint := by
  intro a b h x hxb hxa
  exact h x hxa hxb

/-- Allocation-table well-formedness: unique service ids and pairwise
disjoint port sets. -/
def tableWF (t : List (String × PortPair)) : Prop :=
  (t.map Prod.fst).Nodup ∧ t.Pairwise entryDisjoint

theorem not_pairsOverlap_iff {a b : PortPair} :
    pairsOverlap a b = false ↔ (∀ x ∈ pairPorts a, x ∉ pairPorts b) := by
  constructor
  · intro h x hxa hxb
    simp only [pairsOverlap, Bool.or_eq_false_iff, decide_eq_false_iff_not] at h
    simp only [pairPorts, List.mem_cons, List.mem_singleton,
      List.not_mem_nil, or_false] at hxa hxb
    rcases hxa with rfl | rfl <;> rcases hxb with h' | h' <;> tauto
  · intro h
    simp only [pairsOverlap, Bool.or_eq_false_iff, decide_eq_false_iff_not]
    refine ⟨⟨⟨?_, ?_⟩, ?_⟩, ?_⟩ <;> intro he
    · exact h a.BluePort (by simp [pairPorts]) (by simp [pairPorts, he])
    · exact h a.GreenPort (by simp [pairPorts]) (by simp [pairPorts, he])
    · exact h a.BluePort (by simp [pairPorts]) (by simp [pairPorts, he])
    · exact h a.GreenPort (by simp [pairPorts]) (by simp [pairPorts, he])

theorem pairwise_insertA (t : List (String × PortPair)) (k : String) (v : PortPair)
    (hnd : (t.map Prod.fst).Nodup) (hp : t.Pairwise entryDisjoint)
    (hnew : ∀ e ∈ t, e.1 ≠ k → entryDisjoint (k, v) e) :
    (insertA t k v).Pairwise entryDisjoint := by
  induction t with
  | nil => simp [insertA]
  | cons f rest ih =>
    rcases List.nodup_cons.mp hnd with ⟨hf1, hndrest⟩
    rcases List.pairwise_cons.mp hp with ⟨hfrest, hprest⟩
    by_cases hf : f.1 = k
    · subst hf
      simp only [insertA, if_pos rfl]
      refine List.pairwise_cons.mpr ⟨?_, hprest⟩
      intro e he
      have hek : e.1 ≠ f.1 := by
        intro hcontra
        exact hf1 (hcontra ▸ List.mem_map_of_mem Prod.fst he)
      exact hnew e (List.mem_cons_of_mem _ he) hek
    · simp only [insertA, if_neg hf]
      refine List.pairwise_cons.mpr ⟨?_, ?_⟩
      · intro e he
        rcases mem_insertA rest k v e he with rfl | he'
        · exact entryDisjoint_symm (hnew f (List.mem_cons_self _ _) hf)
        · exact hfrest e he'
      · exact ih hndrest hprest
          (fun e he hek => hnew e (List.mem_cons_of_mem _ he) hek)

theorem isPortAvailable_disjoint {t : List (String × PortPair)}
    {sysFree : Nat → Bool} {b : Nat}
    (hb : isPortAvailable t sysFree b = true)
    (hg : isPortAvailable t sysFree (b + 1) = true) :
    ∀ e ∈ t, entryDisjoint (e.1, e.2) ⟨"", PortPair.mk b (b + 1)⟩ := by
  intro e he x hxe hxp
  have hball := (Bool.and_eq_true_iff.mp hb).1
  have hgall := (Bool.and_eq_true_iff.mp hg).1
  have hbe := List.all_eq_true.mp hball e he
  have hge := List.all_eq_true.mp hgall e he
  simp only [Bool.not_eq_true', Bool.or_eq_false_iff,
    decide_eq_false_iff_not] at hbe hge
  simp only [pairPorts, List.mem_cons, List.mem_singleton,
    List.not_mem_nil, or_false] at hxe hxp
  rcases hxp with rfl | rfl
  · rcases hxe with h | h <;> tauto
  · rcases hxe with h | h <;> tauto

theorem tableWF_applyPortOp (pm : PortManager) (op : PortOp)
    (h : tableWF pm.allocated) : tableWF (applyPortOp pm op).allocated := by
  rcases h with ⟨hnd, hp⟩
  cases op with
  | release id =>
    refine ⟨?_, ?_⟩
    · exact List.Nodup.sublist
        (List.Sublist.map Prod.fst (List.filter_sublist _)) hnd
    · exact List.Pairwise.sublist (List.filter_sublist _) hp
  | reserve id pair =>
    simp only [applyPortOp, PortManager.Reserve]
    by_cases hc : pm.allocated.any
        (fun e => e.1 ≠ id && pairsOverlap e.2 pair) = true
    · simp only [if_pos hc]
      exact ⟨hnd, hp⟩
    · simp only [if_neg hc]
      refine ⟨nodup_keys_insertA _ _ _ hnd, ?_⟩
      refine pairwise_insertA _ _ _ hnd hp ?_
      intro e he hek
      have hov : pairsOverlap e.2 pair = false := by
        cases hov : pairsOverlap e.2 pair with
        | false => rfl
        | true =>
          exact absurd (List.any_eq_true.mpr ⟨e, he, by simp [hek, hov]⟩) hc
      have hdis := not_pairsOverlap_iff.mp hov
      intro x hxp hxe
      exact hdis x hxe hxp
  | allocate f id =>
    simp only [applyPortOp, PortManager.Allocate]
    cases hl : lookupA pm.allocated id with
    | some pair => exact ⟨hnd, hp⟩
    | none =>
      cases hf : (allocCandidates pm.start pm.stop).find?
          (fun b => isPortAvailable pm.allocated f b &&
            isPortAvailable pm.allocated f (b + 1)) with
      | none => exact ⟨hnd, hp⟩
      | some b =>
        have hprop := List.find?_some hf
        have hb := (Bool.and_eq_true_iff.mp hprop).1
        have hg := (Bool.and_eq_true_iff.mp hprop).2
        refine ⟨nodup_keys_insertA _ _ _ hnd, ?_⟩
        refine pairwise_insertA _ _ _ hnd hp ?_
        intro e he _
        have := isPortAvailable_disjoint hb hg e he
        intro x hxp hxe
        exact this x hxe hxp

theorem tableWF_runPortOps (pm : PortManager) (ops : List PortOp)
    (h : tableWF pm.allocated) : tableWF (runPortOps pm ops).allocated := by
  induction ops generalizing pm with
  | nil => exact h
  | cons op rest ih => exact ih _ (tableWF_applyPortOp pm op h)

/-- Pairs produced by a successful `Allocate` are adjacent, and their
blue port has the parity of the range start. -/
theorem allocate_pair_shape (pm : PortManager) (f : Nat → Bool) (id : String)
    (pair : PortPair) (pm' : PortManager)
    (hl : lookupA pm.allocated id = none)
    (h : pm.Allocate f id = .ok (pair, pm')) :
    pair.GreenPort = pair.BluePort + 1 ∧ pair.BluePort % 2 = pm.start % 2 := by
  simp only [PortManager.Allocate, hl] at h
  cases hf : (allocCandidates pm.start pm.stop).find?
      (fun b => isPortAvailable pm.allocated f b &&
        isPortAvailable pm.allocated f (b + 1)) with
  | none => rw [hf] at h; exact absurd h (by simp)
  | some b =>
    rw [hf] at h
    have hmem := List.mem_of_find?_eq_some hf
    simp only [Except.ok.injEq, Prod.mk.injEq] at h
    obtain ⟨hpair, -⟩ := h
    subst hpair
    refine ⟨rfl, ?_⟩
    simp only [allocCandidates] at hmem
    by_cases hr : pm.start + 1 ≤ pm.stop
    · rw [if_pos hr] at hmem
      rcases List.mem_map.mp hmem with ⟨i, _, rfl⟩
      show (pm.start + 2 * i) % 2 = pm.start % 2
      omega
    · rw [if_neg hr] at hmem
      exact absurd hmem (List.not_mem_nil _)

/-- An operation is a plain `Allocate` or `Release` (no `Reserve`). -/
def PortOp.noReserve : PortOp → Prop
  | .allocate _ _ => True
  | .reserve _ _ => False
  | .release _ => True

/-- Shape invariant of the table under reserve-free operation sequences:
every stored pair is adjacent with a blue port of the range-start parity. -/
def tableShaped (s : Nat) (t : List (String × PortPair)) : Prop :=
  ∀ e ∈ t, e.2.GreenPort = e.2.BluePort + 1 ∧ e.2.BluePort % 2 = s % 2

theorem tableShaped_applyPortOp (pm : PortManager) (op : PortOp)
    (hop : op.noReserve) (h : tableShaped pm.start pm.allocated) :
    tableShaped pm.start (applyPortOp pm op).allocated := by
  cases op with
  | release id =>
    intro e he
    exact h e (List.mem_of_mem_filter he)
  | reserve id pair => exact absurd hop not_false
  | allocate f id =>
    simp only [applyPortOp, PortManager.Allocate]
    cases hl : lookupA pm.allocated id with
    | some pair => exact h
    | none =>
      cases hf : (allocCandidates pm.start pm.stop).find?
          (fun b => isPortAvailable pm.allocated f b &&
            isPortAvailable pm.allocated f (b + 1)) with
      | none => exact h
      | some b =>
        intro e he
        rcases mem_insertA _ _ _ e he with rfl | he'
        · have hmem := List.mem_of_find?_eq_some hf
          simp only [allocCandidates] at hmem
          by_cases hr : pm.start + 1 ≤ pm.stop
          · rw [if_pos hr] at hmem
            rcases List.mem_map.mp hmem with ⟨i, _, rfl⟩
            refine ⟨rfl, ?_⟩
            show (pm.start + 2 * i) % 2 = pm.start % 2
            omega
          · rw [if_neg hr] at hmem
            exact absurd hmem (List.not_mem_nil _)
        · exact h e he'

theorem applyPortOp_start (pm : PortManager) (op : PortOp) :
    (applyPortOp pm op).start = pm.start := by
  cases op with
  | release id => rfl
  | reserve id pair =>
    simp only [applyPortOp, PortManager.Reserve]
    by_cases hc : (pm.allocated.any
        fun e => decide (e.1 ≠ id) && pairsOverlap e.2 pair) = true
    · rw [if_pos hc]
    · rw [if_neg hc]
  | allocate f id =>
    simp only [applyPortOp, PortManager.Allocate]
    cases lookupA pm.allocated id with
    | some pair => rfl
    | none =>
      cases (allocCandidates pm.start pm.stop).find?
          (fun b => isPortAvailable pm.allocated f b &&
            isPortAvailable pm.allocated f (b + 1)) with
      | none => rfl
      | some b => rfl

theorem tableShaped_runPortOps (pm : PortManager) (ops : List PortOp)
    (hops : ∀ op ∈ ops, op.noReserve) (h : tableShaped pm.start pm.allocated) :
    tableShaped pm.start (runPortOps pm ops).allocated := by
  induction ops generalizing pm with
  | nil => exact h
  | cons op rest ih =>
    have h1 : tableShaped (applyPortOp pm op).start (applyPortOp pm op).allocated := by
      rw [applyPortOp_start]
      exact tableShaped_applyPortOp pm op (hops op (List.mem_cons_self _ _)) h
    have h2 := ih (applyPortOp pm op)
      (fun o ho => hops o (List.mem_cons_of_mem _ ho)) h1
    rw [applyPortOp_start pm op] at h2
    exact h2

theorem lookupA_some_mem {α : Type} {m : List (String × α)} {k : String} {v : α}
    (h : lookupA m k = some v) : (k, v) ∈ m := by
  unfold lookupA at h
  cases hf : m.find? (fun e => e.1 = k) with
  | none => rw [hf] at h; cases h
  | some e =>
    rw [hf] at h
    have hm := List.mem_of_find?_eq_some hf
    have hk := List.find?_some hf
    simp only [decide_eq_true_eq] at hk
    cases h
    have : (k, e.2) = e := by
      cases e
      simp_all
    rwa [this]

theorem tableWF_lookup_disjoint {t : List (String × PortPair)} (h : tableWF t)
    {i j : String} {pA pB : PortPair} (hij : i ≠ j)
    (hi : lookupA t i = some pA) (hj : lookupA t j = some pB) :
    ∀ x ∈ pairPorts pA, x ∉ pairPorts pB := by
  have hiA := lookupA_some_mem hi
  have hjB := lookupA_some_mem hj
  have hne : (i, pA) ≠ (j, pB) := by
    intro hcontra
    exact hij (congrArg Prod.fst hcontra)
  exact h.2.forall entryDisjoint_symm hiA hjB hne

/-- C6: the claim asserts that after any sequence of `Allocate`,
`Reserve` and `Release` operations every stored pair has an even blue
port and `green = blue + 1`.  `Reserve` installs the caller-supplied pair
unchecked except for cross-service overlap, so reserving the pair (5, 9)
for a service succeeds and leaves a table entry with an odd blue port
whose green port is not `blue + 1`, refuting the claim. -/
theorem C6_counterexample :
    ∃ ent ∈ (runPortOps (NewPortManager 3000 3100)
        [PortOp.reserve "a" ⟨5, 9⟩]).allocated,
      ¬(ent.2.BluePort % 2 = 0 ∧ ent.2.GreenPort = ent.2.BluePort + 1) := by
  refine ⟨("a", ⟨5, 9⟩), ?_, by decide⟩
  simp [runPortOps, applyPortOp, PortManager.Reserve, NewPortManager, insertA]

/-- C6 (amended): after any sequence of `Allocate`, `Reserve` and
`Release` operations from a fresh manager, the port sets of any two
distinct services' pairs are disjoint; and for sequences that use only
`Allocate` and `Release` on an even range start, every stored pair also
has an even blue port with `green = blue + 1`.  (`Reserve` preserves
disjointness but enforces neither evenness nor adjacency.) -/
theorem C6_port_invariants_amended (s e : Nat) (ops : List PortOp)
    (hs : s % 2 = 0) :
    (∀ (idA idB : String) (pA pB : PortPair), idA ≠ idB →
      (runPortOps (NewPortManager s e) ops).Get idA = some pA →
      (runPortOps (NewPortManager s e) ops).Get idB = some pB →
      ∀ x ∈ pairPorts pA, x ∉ pairPorts pB) ∧
    ((∀ op ∈ ops, op.noReserve) →
      ∀ ent ∈ (runPortOps (NewPortManager s e) ops).allocated,
        ent.2.BluePort % 2 = 0 ∧ ent.2.GreenPort = ent.2.BluePort + 1) := by
  have hwf : tableWF (runPortOps (NewPortManager s e) ops).allocated :=
    tableWF_runPortOps _ _ (by constructor <;> simp [NewPortManager])
  constructor
  · intro idA idB pA pB hij hA hB
    exact tableWF_lookup_disjoint hwf hij hA hB
  · intro hops ent hent
    have hshape : tableShaped s (runPortOps (NewPortManager s e) ops).allocated := by
      have := tableShaped_runPortOps (NewPortManager s e) ops hops
        (by intro x hx; simp [NewPortManager] at hx)
      simpa [NewPortManager] using this
    have := hshape ent hent
    exact ⟨by omega, this.1⟩

/-- Witness for `C6_port_invariants_amended` at a concrete operation
sequence (two allocations and a release over the range 3000–3010). -/
theorem C6_port_invariants_amended_witness :
    (∀ (idA idB : String) (pA pB : PortPair), idA ≠ idB →
      (runPortOps (NewPortManager 3000 3010)
        [PortOp.allocate (fun _ => true) "a", PortOp.release "a",
         PortOp.allocate (fun _ => true) "b"]).Get idA = some pA →
      (runPortOps (NewPortManager 3000 3010)
        [PortOp.allocate (fun _ => true) "a", PortOp.release "a",
         PortOp.allocate (fun _ => true) "b"]).Get idB = some pB →
      ∀ x ∈ pairPorts pA, x ∉ pairPorts pB) ∧
    (∀ ent ∈ (runPortOps (NewPortManager 3000 3010)
        [PortOp.allocate (fun _ => true) "a", PortOp.release "a",
         PortOp.allocate (fun _ => true) "b"]).allocated,
      ent.2.BluePort % 2 = 0 ∧ ent.2.GreenPort = ent.2.BluePort + 1) := by
  have h := C6_port_invariants_amended 3000 3010
    [PortOp.allocate (fun _ => true) "a", PortOp.release "a",
     PortOp.allocate (fun _ => true) "b"] (by decide)
  refine ⟨h.1, h.2 ?_⟩
  intro op hop
  simp only [List.mem_cons, List.not_mem_nil, or_false] at hop
  rcases hop with rfl | rfl | rfl <;> trivial

/-!
## Blue/green deployer (`internal/service`, the deployer manager)

`DeployService`, `initialDeploy`, `blueGreenDeploy`, `startContainer`,
`StopService`.  Docker is an external collaborator: the result each
`docker` invocation would return is an oracle field of `DockerEnv`, and
the container-affecting commands the deployer issues are recorded in an
action trace.  `buildServiceImage` (dockerfile resolution, `docker
build`, image retention) only touches the image store and filesystem,
never the containers/ports/routes state the claims are about; it is
modelled by the single oracle `buildImage` returning the image ID or a
failure.  Error strings keep the Go `fmt.Errorf` prefix, without the
wrapped cause. -/

/-- The fields of `api.Service` that the deploy path reads. -/
structure Service where
  ID : String
  Name : String
  DockerContainerPort : Nat
  Port : Nat
  HealthCheckPath : String
  HealthCheckInterval : Nat
  EnvironmentVars : List (String × String)
deriving DecidableEq, Repr

/-- `containerInfo` from the deployer manager. -/
structure ContainerInfo where
  service : Service
  containerName : String
  imageTag : String
  port : Nat
deriving DecidableEq, Repr

/-- The deployer-owned state: the in-memory `containers` table, the port
manager, and the router routes as maintained through the `proxyUpdater`
callback (`service ID -> active port`; `proxyUpdaterSet` models whether
`SetProxyUpdater` installed a callback). -/
structure ManagerState where
  containers : List (String × ContainerInfo)
  portMgr : PortManager
  routes : List (String × Nat)
  proxyUpdaterSet : Bool
deriving DecidableEq, Repr

/-- Oracle results of the Docker/network collaborator calls made during
one `DeployService`/`StopService` call. -/
structure DockerEnv where
  buildImage : Option String
  containerExists : String → Bool
  runContainer : String → Nat → Option String
  connectOk : String → Bool
  healthOk : Bool
  renameOk : Bool
  stopOk : String → Bool
  allocSysFree : Nat → Bool

/-- A container-affecting Docker command issued by the deployer. -/
inductive DockerAction
  | stop (name : String)
  | run (name : String) (hostPort containerPort : Nat)
  | connect (containerID : String)
  | disconnect (containerID : String)
  | rename (oldName newName : String)
deriving DecidableEq, Repr

/-- Result of a deploy call: the Go error (if any), the manager state
after the call, and the Docker commands issued, in order. -/
structure DeployOutcome where
  result : Except String Unit
  state : ManagerState
  trace : List DockerAction
deriving Repr

/-- Container-port resolution: `docker_container_port`, else
`service.Port`, else 8000. -/
def resolveContainerPort (svc : Service) : Nat :=
  if svc.DockerContainerPort ≠ 0 then svc.DockerContainerPort
  else if svc.Port ≠ 0 then svc.Port
  else 8000

/-- `m.startContainer`: remove a stale container bearing the target name,
then `docker run`; returns the new container ID. -/
def startContainer (env : DockerEnv) (name : String) (hostPort containerPort : Nat) :
    Except String String × List DockerAction :=
  let pre : List DockerAction :=
    if env.containerExists name then [.stop name] else []
  match env.runContainer name hostPort with
  | some cid => (.ok cid, pre ++ [.run name hostPort containerPort])
  | none => (.error "failed to start container", pre)

/-- `m.blueGreenDeploy(service, currentInfo, containerName, imageTag)`. -/
def blueGreenDeploy (st : ManagerState) (env : DockerEnv) (service : Service)
    (currentInfo : ContainerInfo) (containerName imageTag : String) :
    DeployOutcome :=
  match env.buildImage with
  | none => ⟨.error "failed to build new image", st, []⟩
  | some _imageID =>
    match st.portMgr.Get service.ID with
    | none => ⟨.error "service port pair not found", st, []⟩
    | some portPair =>
      let greenPort := portPair.GreenPort
      let greenContainerName := containerName ++ "-green"
      let containerPort := resolveContainerPort service
      match startContainer env greenContainerName greenPort containerPort with
      | (.error _, tr) => ⟨.error "failed to start green container", st, tr⟩
      | (.ok greenContainerID, tr) =>
        if ¬ env.connectOk greenContainerID then
          ⟨.error "failed to connect green container to stack network", st,
            tr ++ [.stop greenContainerName]⟩
        else if ¬ env.healthOk then
          ⟨.error "green container health check failed", st,
            tr ++ [.connect greenContainerID, .stop greenContainerName,
              .disconnect greenContainerID]⟩
        else
          let routes' :=
            if st.proxyUpdaterSet then insertA st.routes service.ID greenPort
            else st.routes
          let renameTrace : List DockerAction :=
            if env.renameOk then [.rename greenContainerName containerName] else []
          let activeContainerName :=
            if env.renameOk then containerName else greenContainerName
          { result := .ok ()
            state :=
              { st with
                routes := routes'
                containers := insertA st.containers service.ID
                  { service := service, containerName := activeContainerName,
                    imageTag := imageTag, port := greenPort } }
            trace := tr ++ [.connect greenContainerID,
              .stop currentInfo.containerName,
              .disconnect currentInfo.containerName] ++ renameTrace }

/-- `m.initialDeploy(service, containerName, imageTag)`. -/
def initialDeploy (st : ManagerState) (env : DockerEnv) (service : Service)
    (containerName imageTag : String) : DeployOutcome :=
  match env.buildImage with
  | none => ⟨.error "failed to build image", st, []⟩
  | some _imageID =>
    match st.portMgr.Allocate env.allocSysFree service.ID with
    | .error _ => ⟨.error "failed to allocate port", st, []⟩
    | .ok (portPair, pm₁) =>
      let port := portPair.BluePort
      let containerPort := resolveContainerPort service
      match startContainer env containerName port containerPort with
      | (.error _, tr) =>
        ⟨.error "failed to start container", { st with portMgr := pm₁.Release service.ID }, tr⟩
      | (.ok containerID, tr) =>
        if ¬ env.connectOk containerID then
          ⟨.error "failed to connect container to stack network",
            { st with portMgr := pm₁.Release service.ID },
            tr ++ [.stop containerName]⟩
        else if ¬ env.healthOk then
          ⟨.error "health check failed",
            { st with portMgr := pm₁.Release service.ID },
            tr ++ [.connect containerID, .stop containerName,
              .disconnect containerID]⟩
        else
          let routes' :=
            if st.proxyUpdaterSet then insertA st.routes service.ID port
            else st.routes
          { result := .ok ()
            state :=
              { containers := insertA st.containers service.ID
                  { service := service, containerName := containerName,
                    imageTag := imageTag, port := port }
                portMgr := pm₁
                routes := routes'
                proxyUpdaterSet := st.proxyUpdaterSet }
            trace := tr ++ [.connect containerID] }

/-- `m.DeployService(service)`: blue/green when an in-memory entry with a
nonzero port exists, initial deploy otherwise. -/
def DeployService (st : ManagerState) (env : DockerEnv) (service : Service) :
    DeployOutcome :=
  let containerName := "potato-cloud-" ++ service.ID
  let imageTag := "potato-cloud-" ++ service.ID ++ ":latest"
  match lookupA st.containers service.ID with
  | some currentInfo =>
    if currentInfo.port ≠ 0 then
      blueGreenDeploy st env service currentInfo containerName imageTag
    else initialDeploy st env service containerName imageTag
  | none => initialDeploy st env service containerName imageTag

/-- `m.StopService(serviceID)`.  The Go function performs no state-store
access at all: its effects are the container stop, the network
disconnect, the port release and the `containers` map deletion. -/
def StopService (st : ManagerState) (env : DockerEnv) (serviceID : String) :
    DeployOutcome :=
  match lookupA st.containers serviceID with
  | none => ⟨.error ("service " ++ serviceID ++ " not found"), st, []⟩
  | some info =>
    if env.stopOk info.containerName then
      { result := .ok ()
        state :=
          { st with
            containers := eraseA st.containers serviceID
            portMgr := st.portMgr.Release serviceID }
        trace := [.stop info.containerName, .disconnect info.containerName] }
    else ⟨.error "failed to stop container", st, [.stop info.containerName]⟩

/-- A concrete service used in counterexamples and witnesses. -/
def svcS1 : Service :=
  { ID := "s1", Name := "api", DockerContainerPort := 8000, Port := 0,
    HealthCheckPath := "/healthz", HealthCheckInterval := 0,
    EnvironmentVars := [] }

/-- An environment where every Docker call succeeds. -/
def envAllOk : DockerEnv :=
  { buildImage := some "sha256:img"
    containerExists := fun _ => false
    runContainer := fun _ _ => some "cid-green"
    connectOk := fun _ => true
    healthOk := true
    renameOk := true
    stopOk := fun _ => true
    allocSysFree := fun _ => true }

/-- All calls succeed except the rename of the green container. -/
def envRenameFail : DockerEnv := { envAllOk with renameOk := false }

/-- All calls succeed except the health check. -/
def envHealthFail1 : DockerEnv := { envAllOk with healthOk := false }

/-- Second-redeploy environment: the live container bears the `-green`
name (the previous rename failed), and the health check fails. -/
def envHealthFail2 : DockerEnv :=
  { envAllOk with
    containerExists := fun n => n == "potato-cloud-s1-green"
    healthOk := false }

/-- A concrete manager state: "s1" deployed on its blue port 3000 under
the canonical container name, pair (3000, 3001) allocated, route set. -/
def c2State0 : ManagerState :=
  { containers :=
      [("s1", { service := svcS1, containerName := "potato-cloud-s1",
                imageTag := "potato-cloud-s1:latest", port := 3000 })]
    portMgr := { start := 3000, stop := 3100, allocated := [("s1", ⟨3000, 3001⟩)] }
    routes := [("s1", 3000)]
    proxyUpdaterSet := true }

/-- A state whose recorded active port 4000 matches neither pair member. -/
def c1StateNeither : ManagerState :=
  { containers :=
      [("s1", { service := svcS1, containerName := "potato-cloud-s1",
                imageTag := "potato-cloud-s1:latest", port := 4000 })]
    portMgr := { start := 3000, stop := 3100, allocated := [("s1", ⟨3000, 3001⟩)] }
    routes := [("s1", 4000)]
    proxyUpdaterSet := true }

theorem startContainer_run_mem {env : DockerEnv} {name : String}
    {hp cp : Nat} {n' : String} {hp' cp' : Nat}
    (hmem : DockerAction.run n' hp' cp' ∈ (startContainer env name hp cp).2) :
    n' = name ∧ hp' = hp ∧ cp' = cp := by
  unfold startContainer at hmem
  cases hrc : env.runContainer name hp with
  | some cid =>
    rw [hrc] at hmem
    simp only [List.mem_append] at hmem
    rcases hmem with hpre | hone
    · by_cases hex : env.containerExists name = true
      · simp [hex] at hpre
      · simp [hex] at hpre
    · simp only [List.mem_singleton, DockerAction.run.injEq] at hone
      exact ⟨hone.1, hone.2.1, hone.2.2⟩
  | none =>
    rw [hrc] at hmem
    by_cases hex : env.containerExists name = true
    · simp [hex] at hmem
    · simp [hex] at hmem

theorem blueGreen_health_fail {st : ManagerState} {env : DockerEnv}
    {service : Service} {currentInfo : ContainerInfo}
    {containerName imageTag imageID : String} {pair : PortPair} {cid : String}
    (hbuild : env.buildImage = some imageID)
    (hpair : st.portMgr.Get service.ID = some pair)
    (hrun : env.runContainer (containerName ++ "-green") pair.GreenPort = some cid)
    (hconn : env.connectOk cid = true)
    (hhealth : env.healthOk = false) :
    blueGreenDeploy st env service currentInfo containerName imageTag =
      ⟨.error "green container health check failed", st,
        (if env.containerExists (containerName ++ "-green") then
          [DockerAction.stop (containerName ++ "-green")] else []) ++
          [DockerAction.run (containerName ++ "-green") pair.GreenPort
            (resolveContainerPort service)] ++
          [DockerAction.connect cid, DockerAction.stop (containerName ++ "-green"),
            DockerAction.disconnect cid]⟩ := by
  simp only [blueGreenDeploy, hbuild, hpair, startContainer, hrun, hconn, hhealth,
    Bool.not_true, not_false_eq_true, not_true_eq_false, if_false, if_true,
    Bool.false_eq_true, List.append_assoc]

/-- C2: the claim says a health-check failure during a blue/green redeploy
leaves the previously running container untouched.  When an earlier
redeploy's rename failed, the stored `containerInfo.containerName` is the
`-green` name; the next redeploy's `startContainer` then finds an existing
container bearing its target name and removes it — the running container —
before the replacement is even started.  Concretely: a successful redeploy
whose rename fails, followed by a redeploy whose health check fails,
errors as claimed, but the very first Docker command of the second call
stops the container that was serving traffic. -/
theorem C2_counterexample :
    (DeployService c2State0 envRenameFail svcS1).result = .ok () ∧
    (lookupA (DeployService c2State0 envRenameFail svcS1).state.containers
      "s1").map (fun i => i.containerName) = some "potato-cloud-s1-green" ∧
    (DeployService (DeployService c2State0 envRenameFail svcS1).state
      envHealthFail2 svcS1).result = .error "green container health check failed" ∧
    (DeployService (DeployService c2State0 envRenameFail svcS1).state
      envHealthFail2 svcS1).trace.head? =
      some (DockerAction.stop "potato-cloud-s1-green") := by
  exact ⟨rfl, rfl, rfl, rfl⟩

/-- C2 (amended): in a blue/green redeploy whose green container starts,
connects, and then fails its health check, `DeployService` stops the
green container and returns an error, leaving the router's route, the
in-memory `containerInfo` entry, the port table, and — provided the
stored container name is not the `-green` name left by a previously
failed rename — the previously running blue container unchanged. -/
theorem C2_health_failure_rollback (st : ManagerState) (env : DockerEnv)
    (service : Service) (currentInfo : ContainerInfo) (imageID : String)
    (pair : PortPair) (cid : String)
    (hlook : lookupA st.containers service.ID = some currentInfo)
    (hport : currentInfo.port ≠ 0)
    (hname : currentInfo.containerName ≠ "potato-cloud-" ++ service.ID ++ "-green")
    (hbuild : env.buildImage = some imageID)
    (hpair : st.portMgr.Get service.ID = some pair)
    (hrun : env.runContainer ("potato-cloud-" ++ service.ID ++ "-green")
      pair.GreenPort = some cid)
    (hconn : env.connectOk cid = true)
    (hhealth : env.healthOk = false) :
    (DeployService st env service).result =
        .error "green container health check failed" ∧
    (DeployService st env service).state = st ∧
    DockerAction.stop ("potato-cloud-" ++ service.ID ++ "-green") ∈
      (DeployService st env service).trace ∧
    ∀ a ∈ (DeployService st env service).trace,
      a ≠ DockerAction.stop currentInfo.containerName ∧
        ∀ o n, a ≠ DockerAction.rename o n := by
  have hbg := @blueGreen_health_fail st env service currentInfo
    ("potato-cloud-" ++ service.ID)
    ("potato-cloud-" ++ service.ID ++ ":latest") imageID pair cid
    hbuild hpair hrun hconn hhealth
  have hds : DeployService st env service =
      blueGreenDeploy st env service currentInfo ("potato-cloud-" ++ service.ID)
        ("potato-cloud-" ++ service.ID ++ ":latest") := by
    simp [DeployService, hlook, hport]
  rw [hds, hbg]
  refine ⟨rfl, rfl, ?_, ?_⟩
  · simp
  · intro a ha
    simp only [List.append_assoc, List.mem_append, List.mem_singleton,
      List.mem_cons, List.not_mem_nil, or_false] at ha
    constructor
    · rcases ha with ha | ha | ha
      · by_cases hex : env.containerExists ("potato-cloud-" ++ service.ID ++ "-green") = true
        · simp only [hex, if_true, List.mem_singleton] at ha
          subst ha
          intro hcontra
          exact hname (DockerAction.stop.injEq .. ▸ hcontra).symm
        · simp [hex] at ha
      · subst ha; intro hcontra; cases hcontra
      · rcases ha with ha | ha | ha
        · subst ha; intro hcontra; cases hcontra
        · subst ha
          intro hcontra
          exact hname (DockerAction.stop.injEq .. ▸ hcontra).symm
        · subst ha; intro hcontra; cases hcontra
    · intro o n
      rcases ha with ha | ha | ha
      · by_cases hex : env.containerExists ("potato-cloud-" ++ service.ID ++ "-green") = true
        · simp only [hex, if_true, List.mem_singleton] at ha
          subst ha; intro hcontra; cases hcontra
        · simp [hex] at ha
      · subst ha; intro hcontra; cases hcontra
      · rcases ha with ha | ha | ha
        · subst ha; intro hcontra; cases hcontra
        · subst ha; intro hcontra; cases hcontra
        · subst ha; intro hcontra; cases hcontra

/-- Witness for `C2_health_failure_rollback` at a concrete state: service
"s1" running on port 3000 under its canonical name, health check failing. -/
theorem C2_health_failure_rollback_witness :
    (DeployService c2State0 envHealthFail1 svcS1).result =
        .error "green container health check failed" ∧
    (DeployService c2State0 envHealthFail1 svcS1).state = c2State0 ∧
    DockerAction.stop "potato-cloud-s1-green" ∈
      (DeployService c2State0 envHealthFail1 svcS1).trace ∧
    ∀ a ∈ (DeployService c2State0 envHealthFail1 svcS1).trace,
      a ≠ DockerAction.stop "potato-cloud-s1" ∧
        ∀ o n, a ≠ DockerAction.rename o n := by
  have h := C2_health_failure_rollback c2State0 envHealthFail1 svcS1
    ⟨svcS1, "potato-cloud-s1", "potato-cloud-s1:latest", 3000⟩
    "sha256:img" ⟨3000, 3001⟩ "cid-green"
    (by decide) (by decide) (by decide) rfl (by decide) rfl rfl rfl
  exact h

/-- C1: the claim says a blue/green redeploy errors whenever the current
active port matches neither member of the service's port pair.  At a
state whose recorded active port is 4000 with pair (3000, 3001) and an
otherwise succeeding environment, `DeployService` does not error: it
starts the replacement on the green port 3001 and routes traffic to it
(the code reads only `pair.GreenPort`, never the active port). -/
theorem C1_counterexample :
    (DeployService c1StateNeither envAllOk svcS1).result = .ok () ∧
    DockerAction.run "potato-cloud-s1-green" 3001 8000 ∈
      (DeployService c1StateNeither envAllOk svcS1).trace ∧
    lookupA (DeployService c1StateNeither envAllOk svcS1).state.routes "s1" =
      some 3001 := by
  refine ⟨rfl, ?_, rfl⟩
  simp [DeployService, c1StateNeither, envAllOk, svcS1, blueGreenDeploy,
    PortManager.Get, lookupA, startContainer, resolveContainerPort, List.find?]

/-- C1 (amended): in a blue/green redeploy (existing container with
nonzero recorded port) whose image build succeeds, the deployer always
targets `pair.GreenPort`, regardless of the recorded active port: when
the allocator holds no pair for the service it errors having issued no
Docker command, and when a pair exists every `docker run` it issues uses
host port `pair.GreenPort`, and on success the stored `containerInfo`
port is `pair.GreenPort`. -/
theorem C1_target_port_amended (st : ManagerState) (env : DockerEnv)
    (service : Service) (currentInfo : ContainerInfo) (imageID : String)
    (hlook : lookupA st.containers service.ID = some currentInfo)
    (hport : currentInfo.port ≠ 0)
    (hbuild : env.buildImage = some imageID) :
    (st.portMgr.Get service.ID = none →
      DeployService st env service =
        ⟨.error "service port pair not found", st, []⟩) ∧
    (∀ pair, st.portMgr.Get service.ID = some pair →
      (∀ n hp cp, DockerAction.run n hp cp ∈ (DeployService st env service).trace →
        hp = pair.GreenPort) ∧
      ((DeployService st env service).result = .ok () →
        (lookupA (DeployService st env service).state.containers service.ID).map
          (fun i => i.port) = some pair.GreenPort)) := by
  have hds : DeployService st env service =
      blueGreenDeploy st env service currentInfo ("potato-cloud-" ++ service.ID)
        ("potato-cloud-" ++ service.ID ++ ":latest") := by
    simp [DeployService, hlook, hport]
  rw [hds]
  constructor
  · intro hnone
    simp [blueGreenDeploy, hbuild, hnone]
  · intro pair hpair
    simp only [blueGreenDeploy, hbuild, hpair]
    cases hsc : startContainer env ("potato-cloud-" ++ service.ID ++ "-green")
        pair.GreenPort (resolveContainerPort service) with
    | mk res tr =>
      have htr : tr = (startContainer env ("potato-cloud-" ++ service.ID ++ "-green")
          pair.GreenPort (resolveContainerPort service)).2 := by rw [hsc]
      cases res with
      | error msg =>
        simp only []
        constructor
        · intro n hp cp hmem
          exact (startContainer_run_mem (htr ▸ hmem)).2.1
        · intro hcontra
          cases hcontra
      | ok cid =>
        by_cases hconn : env.connectOk cid = true
        · by_cases hhealth : env.healthOk = true
          · simp only [hconn, hhealth, not_true_eq_false, if_false]
            constructor
            · intro n hp cp hmem
              simp only [List.mem_append] at hmem
              rcases hmem with (hmem | hmem) | hmem
              · exact (startContainer_run_mem (htr ▸ hmem)).2.1
              · simp only [List.mem_cons, List.not_mem_nil, or_false] at hmem
                rcases hmem with hmem | hmem | hmem <;> cases hmem
              · by_cases hren : env.renameOk = true
                · simp [hren] at hmem
                · simp [hren] at hmem
            · intro _
              rw [lookupA_insertA_self]
              rfl
          · have hh : env.healthOk = false := by
              cases hhe : env.healthOk
              · rfl
              · exact absurd hhe hhealth
            simp only [hconn, hh, not_true_eq_false, if_false,
              Bool.false_eq_true, not_false_eq_true, if_true]
            constructor
            · intro n hp cp hmem
              simp only [List.mem_append] at hmem
              rcases hmem with hmem | hmem
              · exact (startContainer_run_mem (htr ▸ hmem)).2.1
              · simp only [List.mem_cons, List.not_mem_nil, or_false] at hmem
                rcases hmem with hmem | hmem | hmem <;> cases hmem
            · intro hcontra
              cases hcontra
        · have hcf : env.connectOk cid = false := by
            cases hce : env.connectOk cid
            · rfl
            · exact absurd hce hconn
          simp only [hcf, Bool.false_eq_true, not_false_eq_true, if_true]
          constructor
          · intro n hp cp hmem
            simp only [List.mem_append] at hmem
            rcases hmem with hmem | hmem
            · exact (startContainer_run_mem (htr ▸ hmem)).2.1
            · simp only [List.mem_singleton] at hmem
              cases hmem
          · intro hcontra
            cases hcontra

/-- Witness for `C1_target_port_amended`: the concrete state of
`C2_health_failure_rollback_witness`'s service with pair (3000, 3001),
all calls succeeding; every issued `docker run` uses port 3001 and the
stored port after success is 3001. -/
theorem C1_target_port_amended_witness :
    (∀ n hp cp, DockerAction.run n hp cp ∈
        (DeployService c2State0 envAllOk svcS1).trace → hp = 3001) ∧
    (lookupA (DeployService c2State0 envAllOk svcS1).state.containers "s1").map
      (fun i => i.port) = some 3001 := by
  have h := C1_target_port_amended c2State0 envAllOk svcS1
    ⟨svcS1, "potato-cloud-s1", "potato-cloud-s1:latest", 3000⟩
    "sha256:img" (by decide) (by decide) rfl
  have h2 := h.2 ⟨3000, 3001⟩ (by decide)
  exact ⟨h2.1, h2.2 rfl⟩

/-- C10: `StopService` on a service id absent from the in-memory
`containers` map returns the error `service <id> not found` and changes
nothing: the containers map, the port allocator table and the routes are
exactly as before, and no Docker command is issued.  (The Go function
makes no state-store call at all, so persisted rows are untouched on
every path.) -/
theorem C10_stop_unknown_service (st : ManagerState) (env : DockerEnv)
    (serviceID : String) (h : lookupA st.containers serviceID = none) :
    StopService st env serviceID =
      ⟨.error ("service " ++ serviceID ++ " not found"), st, []⟩ := by
  simp [StopService, h]

/-- Witness for `C10_stop_unknown_service`: an empty manager state and
the id "ghost". -/
theorem C10_stop_unknown_service_witness :
    StopService
        { containers := [], portMgr := NewPortManager 3000 3100,
          routes := [], proxyUpdaterSet := false } envAllOk "ghost" =
      ⟨.error ("service " ++ "ghost" ++ " not found"),
        { containers := [], portMgr := NewPortManager 3000 3100,
          routes := [], proxyUpdaterSet := false }, []⟩ :=
  C10_stop_unknown_service _ envAllOk "ghost" rfl

/-!
## Reconciler (`cmd/agent/main.go`: `Agent.sync`, `Agent.Run`)

`Agent.sync` interleaves calls into its collaborators (state store, git,
the deployer, the control plane); each call's result is an oracle field
of `SyncEnv`, indexed by service id where the Go code passes one.
Each `hadErrors = true` site in the Go code is paired with a `log.Printf`
of one error line; the model records that line in an `errors` list, and
the Go flag is recovered as the list's non-emptiness (`hadErrors` below).
Firewall, DNS, and tunnel updates only log on failure — they never set
`hadErrors` — and touch no state the claims are about, so they carry no
oracle.  The lifecycle map feeds heartbeats only and is likewise left
out of the sync state.
-/

/-- The columns of a `ServiceProcess` row that `Agent.sync` reads. -/
structure ServiceProcess where
  ServiceID : String
  ServiceName : String
  GitCommit : String
  Status : String
deriving DecidableEq, Repr

/-- The fields of `api.Service` that `Agent.sync` reads directly. -/
structure SyncService where
  ID : String
  Name : String
  ServiceType : String
  GitCommit : String
  Hostname : String
  DockerImage : String
  DockerRunArgs : String
  RunCommand : String
deriving DecidableEq, Repr

/-- The `applied_state` row. -/
structure AppliedState where
  StackVersion : Int
  StateHash : String
deriving DecidableEq, Repr

/-- `DesiredState` fields read by `Agent.sync`. -/
structure DesiredState where
  Version : Int
  Hash : String
  HeartbeatInterval : Int
  SecurityMode : String
  Services : List SyncService
deriving DecidableEq, Repr

/-- Result of `services.RecoverService`: an error, no recovery, or a
recovered port. -/
inductive RecoverResult
  | rerr
  | notRecovered
  | recovered (port : Nat)
deriving DecidableEq, Repr

/-- Oracle results of the collaborator calls one `Agent.sync` makes. -/
structure SyncEnv where
  appliedOk : Bool
  applied : Option AppliedState
  listProcs : Option (List ServiceProcess)
  stopService : String → Bool
  deleteProc : String → Bool
  removeRepo : String → Bool
  getPort : String → Option Nat
  recover : String → RecoverResult
  getProc : String → Option ServiceProcess
  cloneOrPull : String → Option String
  deployOk : String → Bool
  getPortAfter : String → Option Nat
  setAppliedOk : Bool

/-- Whitespace as trimmed by `strings.TrimSpace`, ASCII subset. -/
def goIsSpace (ch : Char) : Bool :=
  ch = ' ' || ch = '\t' || ch = '\n' || ch = '\r'

/-- ASCII-level model of Go `strings.TrimSpace` (the ids, commits and
service types the agent handles are ASCII; defined structurally so that
concrete inputs evaluate in the kernel). -/
def goTrim (s : String) : String :=
  String.mk (((s.data.dropWhile goIsSpace).reverse.dropWhile goIsSpace).reverse)

/-- ASCII-level lower-casing, modelling `strings.EqualFold`'s folding. -/
def goToLower (s : String) : String :=
  String.mk (s.data.map (fun ch =>
    if 'A' ≤ ch && ch ≤ 'Z' then Char.ofNat (ch.toNat + 32) else ch))

/-- `isDockerServiceType`. -/
def isDockerServiceType (serviceType : String) : Bool :=
  goToLower (goTrim serviceType) = "docker"

/-- `serviceRevisionSignature`. -/
def serviceRevisionSignature (svc : SyncService) : String :=
  if isDockerServiceType svc.ServiceType then
    "docker:" ++ goTrim svc.DockerImage ++ "|args:" ++ goTrim svc.DockerRunArgs ++
      "|cmd:" ++ goTrim svc.RunCommand
  else svc.GitCommit

/-- Per-service result of the upsert loop body. -/
structure ServiceResult where
  errors : List String
  deployCalled : Bool
  externalRoute : Option (String × Nat)
  internalRoute : Option (String × Nat)
deriving DecidableEq, Repr

/-- The body of `Agent.sync`'s per-service loop
(`cmd/agent/main.go:468-548`) for one service of the desired state. -/
def processService (stateChanged : Bool) (env : SyncEnv) (svc : SyncService) :
    ServiceResult :=
  let p0 := env.getPort svc.ID
  let rec0 :=
    match p0 with
    | some p => (true, p, ([] : List String))
    | none =>
      match env.recover svc.ID with
      | .rerr => (false, 0, ["failed to recover service " ++ svc.Name])
      | .recovered p => (true, p, [])
      | .notRecovered => (false, 0, [])
  let exists0 := rec0.1
  let port0 := rec0.2.1
  let errs0 := rec0.2.2
  let proc := env.getProc svc.ID
  let needsDeploy0 : Bool :=
    !exists0 ||
      (match proc with
      | none => true
      | some p => decide (p.Status ≠ "running"))
  let resolvedCommit0 :=
    match proc with
    | some p => p.GitCommit
    | none => ""
  if stateChanged || needsDeploy0 then
    -- branch with repo sync / deploy
    let resolvedResult : Except String String :=
      if !isDockerServiceType svc.ServiceType then
        let shouldSyncRepo : Bool :=
          needsDeploy0 || proc.isNone || decide (goTrim svc.GitCommit ≠ "") ||
            decide (goTrim resolvedCommit0 = "")
        if shouldSyncRepo then
          match env.cloneOrPull svc.ID with
          | none => .error ("failed to sync repo for service " ++ svc.Name)
          | some c => .ok c
        else .ok resolvedCommit0
      else .ok (serviceRevisionSignature svc)
    match resolvedResult with
    | .error e => ⟨errs0 ++ [e], false, none, none⟩
    | .ok resolvedCommit =>
      let needsDeploy : Bool :=
        needsDeploy0 ||
          (match proc with
          | none => true
          | some p =>
            decide (p.GitCommit ≠ resolvedCommit) || decide (p.Status ≠ "running"))
      if needsDeploy && !(env.deployOk svc.ID) then
        ⟨errs0 ++ ["failed to deploy service " ++ svc.Name], true, none, none⟩
      else
        match env.getPortAfter svc.ID with
        | none =>
          ⟨errs0 ++ ["no port assigned for service " ++ svc.Name ++ " after sync"],
            needsDeploy, none, none⟩
        | some assignedPort =>
          ⟨errs0, needsDeploy,
            if svc.Hostname ≠ "" then some (svc.Hostname, assignedPort) else none,
            some (svc.Name, assignedPort)⟩
  else
    -- no state change and no pre-resolution deploy need
    if !exists0 then
      ⟨errs0 ++ ["no port assigned for service " ++ svc.Name], false, none, none⟩
    else
      ⟨errs0, false,
        if svc.Hostname ≠ "" then some (svc.Hostname, port0) else none,
        some (svc.Name, port0)⟩

/-- The deletion pass of `Agent.sync` for one leftover process row. -/
def processDeletion (env : SyncEnv) (proc : ServiceProcess) : List String :=
  (if env.stopService proc.ServiceID then []
    else ["failed to stop removed service " ++ proc.ServiceID]) ++
  (if env.deleteProc proc.ServiceID then []
    else ["failed to delete state for service " ++ proc.ServiceID]) ++
  (if env.removeRepo proc.ServiceID then []
    else ["failed to remove repo for service " ++ proc.ServiceID])

/-- `clampHeartbeat`: the [30, 300] clamp at `cmd/agent/main.go:394-400`. -/
def clampHeartbeat (n : Int) : Int :=
  if n < 30 then 30 else if n > 300 then 300 else n

/-- Outcome of one `Agent.sync` call from the run loop's viewpoint:
either the desired-state fetch failed (nothing was updated), or the fetch
succeeded with the stated heartbeat interval (which sync then clamps and
applies, whatever happens later in the cycle). -/
inductive SyncTickOutcome
  | fetchFailed
  | fetched (desiredHB : Int)
deriving DecidableEq, Repr

/-- The value of `a.heartbeatInterval` after a sync call (the Go code
assigns only when the value differs; the resulting value is the same). -/
def syncHeartbeatUpdate (hb : Int) : SyncTickOutcome → Int
  | .fetchFailed => hb
  | .fetched d => clampHeartbeat d

/-- Result of the modelled `Agent.sync`. -/
structure SyncResult where
  newHeartbeat : Int
  stateChanged : Bool
  errors : List String
  deployed : List String
  externalRoutes : List (String × Nat)
  internalRoutes : List (String × Nat)
  appliedWriteAttempted : Bool
  result : Except String Unit
deriving Repr

/-- `Agent.sync` after a successful desired-state fetch
(`cmd/agent/main.go:383-582`), over the collaborator oracle. -/
def Agent.sync (desired : DesiredState) (env : SyncEnv) : SyncResult :=
  let newHeartbeat := clampHeartbeat desired.HeartbeatInterval
  if ¬ env.appliedOk then
    { newHeartbeat := newHeartbeat, stateChanged := false, errors := [],
      deployed := [], externalRoutes := [], internalRoutes := [],
      appliedWriteAttempted := false,
      result := .error "failed to get applied state" }
  else
    let stateChanged :=
      match env.applied with
      | none => true
      | some a => decide (a.StateHash ≠ desired.Hash)
    let desiredIDs := desired.Services.map (fun s => s.ID)
    let deletionErrors :=
      match env.listProcs with
      | none => ["failed to list existing services"]
      | some procs =>
        (procs.filter (fun p => !(desiredIDs.contains p.ServiceID))).flatMap
          (processDeletion env)
    let results := desired.Services.map (fun svc =>
      (svc, processService stateChanged env svc))
    let serviceErrors := results.flatMap (fun r => r.2.errors)
    let errors := deletionErrors ++ serviceErrors
    let hadErrors := !errors.isEmpty
    let deployed := (results.filter (fun r => r.2.deployCalled)).map (fun r => r.1.ID)
    let externalRoutes := results.foldl (fun m r =>
      match r.2.externalRoute with
      | some (h, p) => insertA m h p
      | none => m) []
    let internalRoutes := results.foldl (fun m r =>
      match r.2.internalRoute with
      | some (n, p) => insertA m n p
      | none => m) []
    -- `if hadErrors { return error }; if stateChanged { SetAppliedState }`
    { newHeartbeat := newHeartbeat, stateChanged := stateChanged,
      errors := errors, deployed := deployed,
      externalRoutes := externalRoutes, internalRoutes := internalRoutes,
      appliedWriteAttempted := !hadErrors && stateChanged,
      result :=
        if hadErrors then .error "state applied with errors"
        else if stateChanged && !env.setAppliedOk then
          .error "failed to record applied state"
        else .ok () }

/-- The heartbeat-relevant loop state of `Agent.Run`:
`a.heartbeatInterval` and the interval the ticker currently runs at
(`lastHeartbeatInterval`). -/
structure HeartbeatLoopState where
  interval : Int
  tickerInterval : Int
deriving DecidableEq, Repr

/-- One `case <-ticker.C` iteration of `Agent.Run`'s loop
(`cmd/agent/main.go:325-338`): run sync, then reset the heartbeat ticker
only when the interval changed.  Returns the new state and whether the
ticker was reset. -/
def heartbeatTickStep (s : HeartbeatLoopState) (o : SyncTickOutcome) :
    HeartbeatLoopState × Bool :=
  let hb' := syncHeartbeatUpdate s.interval o
  let reset := decide (hb' > 0) && decide (hb' ≠ s.tickerInterval)
  (⟨hb', if reset then hb' else s.tickerInterval⟩, reset)

/-- The state right after `Agent.Run`'s prologue
(`cmd/agent/main.go:270-319`): interval defaulted to 30, the initial sync
applied, the ticker created at the resulting interval. -/
def runInit (initialSync : SyncTickOutcome) : HeartbeatLoopState :=
  let hb1 := syncHeartbeatUpdate 30 initialSync
  let cur := if hb1 ≤ 0 then 30 else hb1
  ⟨cur, cur⟩

/-- The loop state after a prefix of sync-tick outcomes. -/
def loopStateAfter (initialSync : SyncTickOutcome) (pre : List SyncTickOutcome) :
    HeartbeatLoopState :=
  pre.foldl (fun s o => (heartbeatTickStep s o).1) (runInit initialSync)

/-- Claim-side view: the service has an in-memory port mapping, counting
a successful restart recovery. -/
def existsInMemory (env : SyncEnv) (svc : SyncService) : Bool :=
  (env.getPort svc.ID).isSome ||
    (match env.recover svc.ID with
    | .recovered _ => true
    | _ => false)

/-- Claim-side view: no persisted `ServiceProcess` row, or its status is
not "running". -/
def persistedNotRunning (env : SyncEnv) (svc : SyncService) : Bool :=
  match env.getProc svc.ID with
  | none => true
  | some p => decide (p.Status ≠ "running")

/-- Claim-side view of `shouldSyncRepo`: when the cycle refreshes the
commit via `VCS.CloneOrPull` at all. -/
def repoSyncNeeded (env : SyncEnv) (svc : SyncService) : Bool :=
  !existsInMemory env svc || persistedNotRunning env svc ||
    (env.getProc svc.ID).isNone || decide (goTrim svc.GitCommit ≠ "") ||
    (match env.getProc svc.ID with
    | none => true
    | some p => decide (goTrim p.GitCommit = ""))

/-- Claim-side view: the persisted commit differs from the commit the
cycle uses — the freshly resolved one when the repo was synced, the
persisted one itself (hence never) otherwise. -/
def persistedCommitDiffers (env : SyncEnv) (svc : SyncService) (c : String) : Bool :=
  match env.getProc svc.ID with
  | none => true
  | some p => if repoSyncNeeded env svc then decide (p.GitCommit ≠ c) else false

/-- Concrete sync inputs used by witnesses and counterexamples. -/
def svcSync1 : SyncService :=
  { ID := "s1", Name := "api", ServiceType := "", GitCommit := "abc",
    Hostname := "api.example.com", DockerImage := "", DockerRunArgs := "",
    RunCommand := "" }

/-- A persisted row: "s1" running at commit "abc". -/
def procS1running : ServiceProcess :=
  { ServiceID := "s1", ServiceName := "api", GitCommit := "abc",
    Status := "running" }

/-- A persisted row: "s1" stopped at commit "abc". -/
def procS1stopped : ServiceProcess :=
  { ServiceID := "s1", ServiceName := "api", GitCommit := "abc",
    Status := "stopped" }

/-- A fully healthy collaborator environment: "s1" in memory on port
3000, persisted running at the commit the clone resolves. -/
def envSyncHappy : SyncEnv :=
  { appliedOk := true
    applied := some { StackVersion := 1, StateHash := "h1" }
    listProcs := some [procS1running]
    stopService := fun _ => true
    deleteProc := fun _ => true
    removeRepo := fun _ => true
    getPort := fun _ => some 3000
    recover := fun _ => .notRecovered
    getProc := fun _ => some procS1running
    cloneOrPull := fun _ => some "abc"
    deployOk := fun _ => true
    getPortAfter := fun _ => some 3000
    setAppliedOk := true }

/-- As `envSyncHappy`, but the persisted status is "stopped". -/
def envSyncStopped : SyncEnv :=
  { envSyncHappy with getProc := fun _ => some procS1stopped }

/-- A desired state whose hash differs from the applied "h1". -/
def desiredH2 : DesiredState :=
  { Version := 2, Hash := "h2", HeartbeatInterval := 60,
    SecurityMode := "none", Services := [svcSync1] }

/-- C3: the `AppliedState` row is written only when the whole cycle
completed without per-service errors: when the write is attempted the
error list is empty, and any recorded per-service error (removal,
repo fetch, deploy, recovery, port lookup) suppresses the write and
makes the cycle return an error. -/
theorem C3_applied_state_write_gated (desired : DesiredState) (env : SyncEnv) :
    ((Agent.sync desired env).appliedWriteAttempted = true →
      (Agent.sync desired env).errors = []) ∧
    ((Agent.sync desired env).errors ≠ [] →
      (Agent.sync desired env).appliedWriteAttempted = false ∧
        ∃ msg, (Agent.sync desired env).result = .error msg) := by
  by_cases hap : env.appliedOk = true
  · have hr : (Agent.sync desired env).appliedWriteAttempted =
        (!(!(Agent.sync desired env).errors.isEmpty) &&
          (Agent.sync desired env).stateChanged) := by
      simp [Agent.sync, hap]
    have hres : (Agent.sync desired env).result =
        (if (!(Agent.sync desired env).errors.isEmpty) = true then
          Except.error "state applied with errors"
        else if ((Agent.sync desired env).stateChanged && !env.setAppliedOk) = true
          then Except.error "failed to record applied state"
        else Except.ok ()) := by
      simp [Agent.sync, hap]
    constructor
    · intro h
      rw [hr] at h
      simp only [Bool.and_eq_true, Bool.not_not] at h
      exact List.isEmpty_iff.mp h.1
    · intro h
      have hie : (Agent.sync desired env).errors.isEmpty = false := by
        cases hie' : (Agent.sync desired env).errors.isEmpty
        · rfl
        · exact absurd (List.isEmpty_iff.mp hie') h
      refine ⟨?_, "state applied with errors", ?_⟩
      · rw [hr, hie]
        rfl
      · rw [hres, hie]
        rfl
  · have hap' : env.appliedOk = false := by
      cases h : env.appliedOk
      · rfl
      · exact absurd h hap
    simp [Agent.sync, hap']

/-- Witness for `C3_applied_state_write_gated`: the healthy environment
with a changed hash attempts the write and has recorded no errors. -/
theorem C3_applied_state_write_gated_witness :
    (Agent.sync desiredH2 envSyncHappy).errors = [] ∧
    (Agent.sync desiredH2 envSyncHappy).appliedWriteAttempted = true := by
  have h := C3_applied_state_write_gated desiredH2 envSyncHappy
  have hw : (Agent.sync desiredH2 envSyncHappy).appliedWriteAttempted = true := by
    decide
  exact ⟨h.1 hw, hw⟩

/-- C4: the claim says `Deploy` is called whenever the desired-state hash
changed or `needs_deploy` holds.  On a sync whose hash changed ("h1" to
"h2") with the service in memory, persisted running, and the freshly
resolved commit equal to the persisted one, the code deploys nothing
(and completes cleanly), refuting the "whenever the hash changed" part. -/
theorem C4_counterexample :
    (Agent.sync desiredH2 envSyncHappy).stateChanged = true ∧
    (Agent.sync desiredH2 envSyncHappy).deployed = [] ∧
    (Agent.sync desiredH2 envSyncHappy).errors = [] := by
  refine ⟨by decide, by decide, by decide⟩

set_option maxHeartbeats 4000000 in
/-- C4 (amended): for a non-docker service whose repo fetch succeeds with
commit `c`, `Deploy` is called exactly when
`(state_changed || !in_memory || persisted_not_running) &&
 (!in_memory || persisted_not_running || persisted_commit_differs)`:
the commit disjunct is compared against the freshly resolved commit only
when the repo was synced, and a hash change alone — with an in-memory,
running service at an unchanged commit — does not trigger `Deploy`; a
persisted status other than "running" triggers it even when the hash is
unchanged. -/
theorem C4_deploy_decision_amended (stateChanged : Bool) (env : SyncEnv)
    (svc : SyncService) (c : String)
    (hdocker : isDockerServiceType svc.ServiceType = false)
    (hclone : env.cloneOrPull svc.ID = some c) :
    (processService stateChanged env svc).deployCalled =
      ((stateChanged || !existsInMemory env svc || persistedNotRunning env svc) &&
        (!existsInMemory env svc || persistedNotRunning env svc ||
          persistedCommitDiffers env svc c)) := by
  unfold processService persistedCommitDiffers repoSyncNeeded
    existsInMemory persistedNotRunning
  rcases hp0 : env.getPort svc.ID with _ | p <;>
    rcases hproc : env.getProc svc.ID with _ | pr <;>
    simp only [hdocker, hclone, Option.isSome_some, Option.isSome_none,
      Option.isNone_some, Option.isNone_none, Bool.not_false, Bool.not_true,
      if_true, if_false] <;>
    (try rcases hrec : env.recover svc.ID with _ | _ | port) <;>
    cases stateChanged <;>
    (try by_cases hrun : pr.Status = "running") <;>
    (try by_cases hpin : goTrim svc.GitCommit = "") <;>
    (try by_cases hpc : goTrim pr.GitCommit = "") <;>
    (try by_cases hcc : pr.GitCommit = c) <;>
    (try split) <;>
    (try split) <;>
    (try split) <;>
    (try split) <;>
    simp_all

/-- Witness for `C4_deploy_decision_amended`: with an unchanged hash but
a persisted status "stopped", the deploy decision is `true`. -/
theorem C4_deploy_decision_amended_witness :
    (processService false envSyncStopped svcSync1).deployCalled = true := by
  have h := C4_deploy_decision_amended false envSyncStopped svcSync1 "abc"
    (by decide) rfl
  rw [h]
  decide

theorem clampHeartbeat_mem (d : Int) :
    30 ≤ clampHeartbeat d ∧ clampHeartbeat d ≤ 300 := by
  unfold clampHeartbeat
  split
  · omega
  · split <;> omega

/-- The run-loop invariant: the ticker runs at `a.heartbeatInterval`, and
that interval is at least 30. -/
def hbInv (s : HeartbeatLoopState) : Prop :=
  s.tickerInterval = s.interval ∧ 30 ≤ s.interval

theorem hbInv_step (s : HeartbeatLoopState) (o : SyncTickOutcome)
    (h : hbInv s) : hbInv (heartbeatTickStep s o).1 := by
  rcases h with ⟨ht, hi⟩
  cases o with
  | fetchFailed =>
    simp only [heartbeatTickStep, syncHeartbeatUpdate, ht]
    constructor
    · simp
    · simpa using hi
  | fetched d =>
    have hc := clampHeartbeat_mem d
    simp only [heartbeatTickStep, syncHeartbeatUpdate]
    by_cases heq : clampHeartbeat d = s.tickerInterval
    · constructor
      · simp [heq]
      · simpa using hc.1
    · constructor
      · have hpos : 0 < clampHeartbeat d := by omega
        simp [heq, hpos]
      · simpa using hc.1

theorem hbInv_fold (s : HeartbeatLoopState) (l : List SyncTickOutcome)
    (h : hbInv s) :
    hbInv (l.foldl (fun s o => (heartbeatTickStep s o).1) s) := by
  induction l generalizing s with
  | nil => exact h
  | cons o rest ih => exact ih _ (hbInv_step s o h)

theorem hbInv_loopStateAfter (init : SyncTickOutcome)
    (pre : List SyncTickOutcome) : hbInv (loopStateAfter init pre) := by
  refine hbInv_fold _ _ ?_
  unfold runInit hbInv
  cases init with
  | fetchFailed => simp [syncHeartbeatUpdate]
  | fetched d =>
    have hc := clampHeartbeat_mem d
    simp only [syncHeartbeatUpdate]
    have hnp : ¬ clampHeartbeat d ≤ 0 := by omega
    simp only [hnp, if_false]
    exact ⟨by trivial, by simpa using hc.1⟩

/-- C5: every sync clamps the heartbeat interval from the fetched desired
state into [30, 300] and applies it; and on each poll-loop iteration the
heartbeat ticker is reset exactly when the interval after that sync
differs from the interval before — in particular it is never reset on a
sync that leaves the interval unchanged (including failed fetches). -/
theorem C5_heartbeat_clamp_and_reset (init : SyncTickOutcome)
    (pre : List SyncTickOutcome) (o : SyncTickOutcome) :
    (∀ d, o = .fetched d →
      (heartbeatTickStep (loopStateAfter init pre) o).1.interval =
          clampHeartbeat d ∧
        30 ≤ clampHeartbeat d ∧ clampHeartbeat d ≤ 300) ∧
    ((heartbeatTickStep (loopStateAfter init pre) o).2 = true ↔
      syncHeartbeatUpdate (loopStateAfter init pre).interval o ≠
        (loopStateAfter init pre).interval) := by
  obtain ⟨ht, hi⟩ := hbInv_loopStateAfter init pre
  constructor
  · rintro d rfl
    exact ⟨rfl, clampHeartbeat_mem d⟩
  · have hpos : 0 < syncHeartbeatUpdate (loopStateAfter init pre).interval o := by
      cases o with
      | fetchFailed => simp only [syncHeartbeatUpdate]; omega
      | fetched d =>
        have := clampHeartbeat_mem d
        simp only [syncHeartbeatUpdate]
        omega
    simp only [heartbeatTickStep, Bool.and_eq_true, decide_eq_true_eq, ht]
    constructor
    · intro hres
      exact hres.2
    · intro hne
      exact ⟨hpos, hne⟩

/-- Witness for `C5_heartbeat_clamp_and_reset`: the initial sync reports
45 seconds, one loop sync keeps 45, the next reports 120. -/
theorem C5_heartbeat_clamp_and_reset_witness :
    ((heartbeatTickStep (loopStateAfter (.fetched 45) [.fetched 45])
        (.fetched 120)).1.interval = clampHeartbeat 120 ∧
      30 ≤ clampHeartbeat 120 ∧ clampHeartbeat 120 ≤ 300) ∧
    ((heartbeatTickStep (loopStateAfter (.fetched 45) [.fetched 45])
        (.fetched 120)).2 = true ↔
      syncHeartbeatUpdate (loopStateAfter (.fetched 45) [.fetched 45]).interval
          (.fetched 120) ≠
        (loopStateAfter (.fetched 45) [.fetched 45]).interval) := by
  have h := C5_heartbeat_clamp_and_reset (.fetched 45) [.fetched 45] (.fetched 120)
  exact ⟨h.1 120 rfl, h.2⟩

/-!
## External reverse proxy (`internal/proxy/external.go`)

`handleRequest`, `longestPrefixMatch`, `extractStackID`.  String
primitives (`strings.HasPrefix`, `strings.Index`, `strings.Split`,
`strings.TrimPrefix`) are modelled structurally over the character list
of the string (byte-accurate for the ASCII hostnames, paths and route
keys the agent handles). -/

/-- `strings.HasPrefix`. -/
def strHasPrefix (s pre : String) : Bool :=
  pre.data.isPrefixOf s.data

/-- `strings.TrimPrefix`. -/
def trimPrefixStr (s pre : String) : String :=
  if strHasPrefix s pre then String.mk (s.data.drop pre.data.length) else s

/-- `strings.Split(l, ".")` on a character list. -/
def splitOnDot : List Char → List (List Char)
  | [] => [[]]
  | c :: rest =>
    match splitOnDot rest with
    | [] => [[]]
    | h :: t => if c = '.' then [] :: h :: t else (c :: h) :: t

/-- `extractStackID`: strip the port from the Host, split on dots, and
require the first label to start with "stack-". -/
def extractStackID (host : String) : String :=
  let name := host.data.takeWhile (fun ch => ch ≠ ':')
  match splitOnDot name with
  | [] => ""
  | firstPart :: _ =>
    if ("stack-".data).isPrefixOf firstPart then
      String.mk (firstPart.drop "stack-".data.length)
    else ""

/-- `longestPrefixMatch(path, global, stack)`: the longest route key that
is a prefix of the URL path, with its port, and whether it came from the
stack map.  (Strictly-longer replacement makes the result independent of
map iteration order: two distinct keys of equal length cannot both be
prefixes of the same path.) -/
def longestPrefixMatch (path : String) (global stack : List (String × Nat)) :
    String × Nat × Bool :=
  let r1 := global.foldl (fun acc e =>
    if strHasPrefix path e.1 && decide (acc.1.length < e.1.length) then
      (e.1, e.2, false)
    else acc) ("", 0, false)
  stack.foldl (fun acc e =>
    if strHasPrefix path e.1 && decide (acc.1.length < e.1.length) then
      (e.1, e.2, true)
    else acc) r1

/-- What `ExternalProxy.handleRequest` does with a request: respond with
an error status and body, or reverse-proxy to a target host and port
with a rewritten path. -/
inductive ProxyDecision
  | notFound (body : String)
  | proxyTo (targetHost : String) (port : Nat) (path : String)
deriving DecidableEq, Repr

/-- `ExternalProxy.handleRequest` over the route tables and the
request's Host header and URL path. -/
def handleRequest (routes : List (String × Nat))
    (stackRoutes : List (String × List (String × Nat)))
    (host path : String) : ProxyDecision :=
  let stackID := extractStackID host
  let m0 := longestPrefixMatch path routes []
  let m :=
    if stackID ≠ "" then
      match lookupA stackRoutes stackID with
      | some stackSpecific =>
        let ms := longestPrefixMatch path [] stackSpecific
        if m0.1.length < ms.1.length then (ms.1, ms.2.1, true) else m0
      | none => m0
    else m0
  if m.2.1 = 0 then .notFound "No route found"
  else
    let targetHost :=
      if m.2.2 && stackID ≠ "" then "stack-" ++ stackID ++ ".svc.internal"
      else "127.0.0.1"
    let newPath := trimPrefixStr path m.1
    .proxyTo targetHost m.2.1
      (if strHasPrefix newPath "/" then newPath else "/" ++ newPath)

/-- C7: the reconciler does register one external route per service with
a non-empty hostname, keyed by that hostname (here `api.example.com ↦
3000`), exactly as the claim says — but `handleRequest` selects routes by
longest-prefix match of the request's URL *path* against the table, so a
request whose Host header is that hostname never matches (URL paths start
with "/"), and the 404 body is the fixed string "No route found", which
does not contain the hostname.  External hostname routing is therefore
dead: the claim describes the intended behaviour (and the reconciler's
comment says "hostname-based routing"), the proxy code matches paths. -/
theorem C7_hostname_routing_dead :
    lookupA (Agent.sync desiredH2 envSyncHappy).externalRoutes
        "api.example.com" = some 3000 ∧
    handleRequest (Agent.sync desiredH2 envSyncHappy).externalRoutes []
        "api.example.com" "/" = .notFound "No route found" ∧
    handleRequest (Agent.sync desiredH2 envSyncHappy).externalRoutes []
        "api.example.com:8080" "/healthz" = .notFound "No route found" := by
  refine ⟨by decide, by decide, by decide⟩

/-!
## Dockerfile generator (`internal/container/generator.go`)

`LanguageConfigs` (the `DetectFiles` registry) and `DetectLanguage`.
`DetectLanguage` ranges over a Go map whose iteration order is
unspecified; the order is therefore an explicit parameter, and the
detection theorem quantifies over every permutation of the registry.
`present file` models `os.Stat(repoPath/file)` succeeding. -/

/-- The `DetectFiles` column of `LanguageConfigs`, in declaration order. -/
def LanguageConfigs : List (String × List String) :=
  [("nodejs", ["package.json", "package-lock.json"]),
   ("golang", ["go.mod", "go.sum"]),
   ("python", ["requirements.txt", "pyproject.toml"]),
   ("rust", ["Cargo.toml"]),
   ("java", ["pom.xml", "build.gradle"]),
   ("generic", [])]

/-- `Generator.DetectLanguage`: the first language, in the map-iteration
order, one of whose sentinel files is present; `"generic"` otherwise. -/
def DetectLanguage (order : List (String × List String))
    (present : String → Bool) : String :=
  match order.find? (fun lc => lc.2.any present) with
  | some lc => lc.1
  | none => "generic"

/-- C9: for any map-iteration order, a repository containing exactly the
sentinel files of one configured language L (and no sentinel of any
other) detects as L, and a repository containing no sentinel file of any
language detects as "generic". -/
theorem C9_detect_language (order : List (String × List String))
    (hperm : order.Perm LanguageConfigs) (present : String → Bool) :
    (∀ L files, (L, files) ∈ LanguageConfigs →
      (∀ f, present f = true ↔ f ∈ files) →
      DetectLanguage order present = L) ∧
    ((∀ f, present f = false) → DetectLanguage order present = "generic") := by
  have hdisj : ∀ e1 ∈ LanguageConfigs, ∀ e2 ∈ LanguageConfigs, e1 ≠ e2 →
      ∀ f, f ∈ e1.2 → f ∉ e2.2 := by decide
  constructor
  · intro L files hmem hiff
    by_cases hany : files.any present = true
    · have hLorder : (L, files) ∈ order := hperm.mem_iff.mpr hmem
      cases hf : order.find? (fun lc => lc.2.any present) with
      | none =>
        exfalso
        exact absurd hany (List.find?_eq_none.mp hf (L, files) hLorder)
      | some e =>
        have hep := List.find?_some hf
        have hem : e ∈ order := List.mem_of_find?_eq_some hf
        have hec : e ∈ LanguageConfigs := hperm.mem_iff.mp hem
        rcases List.any_eq_true.mp hep with ⟨f, hfe, hpf⟩
        have hffiles : f ∈ files := (hiff f).mp hpf
        have he : e = (L, files) := by
          by_contra hne
          exact hdisj e hec (L, files) hmem hne f hfe hffiles
        unfold DetectLanguage
        rw [hf, he]
    · have hfiles : files = [] := by
        cases files with
        | nil => rfl
        | cons f fs =>
          exfalso
          have hpf : present f = true := (hiff f).mpr (List.mem_cons_self _ _)
          exact hany (List.any_eq_true.mpr ⟨f, List.mem_cons_self _ _, hpf⟩)
      subst hfiles
      have hL : L = "generic" := by
        simp only [LanguageConfigs, List.mem_cons, List.mem_singleton,
          Prod.mk.injEq, List.not_mem_nil, or_false] at hmem
        rcases hmem with ⟨h1, h2⟩ | ⟨h1, h2⟩ | ⟨h1, h2⟩ | ⟨h1, h2⟩ |
          ⟨h1, h2⟩ | ⟨h1, h2⟩ <;> first | (exact h1) | (cases h2)
      have hnone : order.find? (fun lc => lc.2.any present) = none := by
        rw [List.find?_eq_none]
        intro e hem hep
        rcases List.any_eq_true.mp hep with ⟨f, hfe, hpf⟩
        exact absurd ((hiff f).mp hpf) (List.not_mem_nil f)
      unfold DetectLanguage
      rw [hnone, hL]
  · intro hnone
    have hfn : order.find? (fun lc => lc.2.any present) = none := by
      rw [List.find?_eq_none]
      intro e hem hep
      rcases List.any_eq_true.mp hep with ⟨f, hfe, hpf⟩
      rw [hnone f] at hpf
      cases hpf
    unfold DetectLanguage
    rw [hfn]

/-- Witness for `C9_detect_language`: a repo holding exactly `go.mod` and
`go.sum` detects as "golang", an empty repo as "generic", in the
registry's own order. -/
theorem C9_detect_language_witness :
    DetectLanguage LanguageConfigs
        (fun f => f == "go.mod" || f == "go.sum") = "golang" ∧
    DetectLanguage LanguageConfigs (fun _ => false) = "generic" := by
  have h := C9_detect_language LanguageConfigs (List.Perm.refl _)
    (fun f => f == "go.mod" || f == "go.sum")
  have h2 := C9_detect_language LanguageConfigs (List.Perm.refl _)
    (fun _ => false)
  refine ⟨h.1 "golang" ["go.mod", "go.sum"] (by decide) ?_, h2.2 (fun _ => rfl)⟩
  intro f
  simp [List.mem_cons]

/-!
## Secret store (`agent/internal/secrets/manager.go`)

`SetSecret`, `GetSecret`, `ListSecrets`, `getSecretFilename`.  The store
is a flat directory of files `<serviceID>.<name>.secret`; the model maps
base filenames to the decoded `Secret` payload: AES-GCM decryption of an
encryption and JSON unmarshalling of a marshalling are library-level
identities, so `decrypt ∘ read ∘ write ∘ encrypt` composes away and the
claims concern only the store's filename algebra.  `filepath.Glob` is
modelled by a structural matcher handling literals, `*` and `?` (`*` and
`?` do not cross `/`); character classes and escapes never arise for the
service ids the theorems quantify over.  Glob sorts its matches; the
list theorems are stated via membership and are order-insensitive.
Strings are treated as character sequences (byte-accurate for ASCII). -/

/-- The decoded secret payload `{name, service_id, value}`. -/
structure Secret where
  name : String
  service_id : String
  value : String
deriving DecidableEq, Repr

/-- The secrets directory: base filename to decoded payload. -/
abbrev SecretsFS := List (String × Secret)

/-- `getSecretFilename`: `<serviceID>.<name>.secret`. -/
def getSecretFilename (name serviceID : String) : String :=
  serviceID ++ "." ++ name ++ ".secret"

/-- `SetSecret`: marshal, encrypt and (over)write the secret's file. -/
def SetSecret (fs : SecretsFS) (name serviceID value : String) : SecretsFS :=
  insertA fs (getSecretFilename name serviceID)
    { name := name, service_id := serviceID, value := value }

/-- `GetSecret`: read, decrypt and unmarshal; distinct error when the
file is missing. -/
def GetSecret (fs : SecretsFS) (name serviceID : String) :
    Except String String :=
  match lookupA fs (getSecretFilename name serviceID) with
  | some s => .ok s.value
  | none => .error ("secret not found: " ++ name)

/-- The suffixes of `s` reachable by consuming a (possibly empty) run of
non-separator characters — the strings a `*` may leave for the rest of
the pattern. -/
def dropCandidates : List Char → List (List Char)
  | [] => [[]]
  | c :: cs => (c :: cs) :: (if c = '/' then [] else dropCandidates cs)

/-- `path.Match` over literals, `*` and `?` (structural in the pattern). -/
def globMatch : List Char → List Char → Bool
  | [], s => s.isEmpty
  | p :: ps, s =>
    if p = '*' then (dropCandidates s).any (fun suf => globMatch ps suf)
    else if p = '?' then
      match s with
      | [] => false
      | c :: cs => decide (c ≠ '/') && globMatch ps cs
    else
      match s with
      | [] => false
      | c :: cs => decide (p = c) && globMatch ps cs

/-- The name extracted by `ListSecrets` from a matching base filename:
`base[len(serviceID)+1 : len(base)-7]`. -/
def extractSecretName (serviceID base : String) : String :=
  String.mk ((base.data.drop (serviceID.length + 1)).take
    ((base.data.drop (serviceID.length + 1)).length - 7))

/-- `ListSecrets`: glob `<serviceID>.*.secret` over the directory and
strip prefix and suffix from each match. -/
def ListSecrets (fs : SecretsFS) (serviceID : String) : List String :=
  (fs.map Prod.fst).filterMap (fun base =>
    if globMatch (serviceID ++ ".*.secret").data base.data then
      some (extractSecretName serviceID base)
    else none)

/-- C8: the claim says `ListSecrets(svc)` returns exactly the names
stored for that service.  Names may contain dots: storing the secret
"b.c" for service "a" creates the file `a.b.c.secret`, which the glob
`a.b.*.secret` of service "a.b" also matches — so `ListSecrets "a.b"`
reports the name "c" although nothing was ever stored for service
"a.b". -/
theorem C8_counterexample :
    ListSecrets (SetSecret [] "b.c" "a" "v") "a.b" = ["c"] ∧
    ∀ e ∈ SetSecret [] "b.c" "a" "v", e.2.service_id ≠ "a.b" := by
  refine ⟨by decide, by decide⟩

/-- Service ids and secret names without dots, path separators or glob
metacharacters. -/
def cleanID (s : String) : Bool :=
  s.data.all (fun ch =>
    ch ≠ '.' && ch ≠ '/' && ch ≠ '*' && ch ≠ '?' && ch ≠ '[' && ch ≠ '\\')

/-- A store in which every file was produced by `SetSecret` with clean
ids: its key is the filename of its payload. -/
def fsWellFormed (fs : SecretsFS) : Prop :=
  ∀ e ∈ fs, e.1 = getSecretFilename e.2.name e.2.service_id ∧
    cleanID e.2.name = true ∧ cleanID e.2.service_id = true

theorem cleanID_spec {s : String} (h : cleanID s = true) :
    ∀ ch ∈ s.data, ch ≠ '.' ∧ ch ≠ '/' ∧ ch ≠ '*' ∧ ch ≠ '?' := by
  intro ch hch
  have hc := List.all_eq_true.mp h ch hch
  simp only [Bool.and_eq_true, decide_eq_true_eq, ne_eq] at hc
  exact ⟨hc.1.1.1.1.1, hc.1.1.1.1.2, hc.1.1.1.2, hc.1.1.2⟩

theorem globMatch_lit_cons {c d : Char} (ps ds : List Char)
    (hstar : c ≠ '*') (hq : c ≠ '?') :
    globMatch (c :: ps) (d :: ds) = (decide (c = d) && globMatch ps ds) := by
  simp only [globMatch, if_neg hstar, if_neg hq]

theorem globMatch_lit_nil {c : Char} (ps : List Char)
    (hstar : c ≠ '*') (hq : c ≠ '?') :
    globMatch (c :: ps) [] = false := by
  simp only [globMatch, if_neg hstar, if_neg hq]

theorem globMatch_append_lit (lit : List Char)
    (hlit : ∀ ch ∈ lit, ch ≠ '*' ∧ ch ≠ '?') (p s : List Char) :
    globMatch (lit ++ p) (lit ++ s) = globMatch p s := by
  induction lit with
  | nil => rfl
  | cons c rest ih =>
    have hc := hlit c (List.mem_cons_self _ _)
    rw [List.cons_append, List.cons_append, globMatch_lit_cons _ _ hc.1 hc.2]
    simp [ih (fun ch hch => hlit ch (List.mem_cons_of_mem _ hch))]

theorem suffix_mem_dropCandidates (nm tail : List Char)
    (hnm : ∀ ch ∈ nm, ch ≠ '/') : tail ∈ dropCandidates (nm ++ tail) := by
  induction nm with
  | nil =>
    cases tail with
    | nil => simp [dropCandidates]
    | cons c cs => simp [dropCandidates]
  | cons c rest ih =>
    have hc : c ≠ '/' := hnm c (List.mem_cons_self _ _)
    simp only [List.cons_append, dropCandidates, if_neg hc]
    exact List.mem_cons_of_mem _
      (ih (fun ch hch => hnm ch (List.mem_cons_of_mem _ hch)))

theorem globMatch_filename_same (svc nm : List Char)
    (hsvc : ∀ ch ∈ svc, ch ≠ '*' ∧ ch ≠ '?')
    (hnm : ∀ ch ∈ nm, ch ≠ '/') :
    globMatch (svc ++ ('.' :: '*' :: ".secret".data))
      (svc ++ ('.' :: (nm ++ ".secret".data))) = true := by
  rw [globMatch_append_lit svc hsvc]
  rw [globMatch_lit_cons _ _ (by decide) (by decide)]
  simp only [Bool.and_eq_true, decide_eq_true_eq]
  refine ⟨by trivial, ?_⟩
  show globMatch ('*' :: ".secret".data) (nm ++ ".secret".data) = true
  simp only [globMatch, if_pos rfl]
  apply List.any_eq_true.mpr
  exact ⟨".secret".data, suffix_mem_dropCandidates nm _ hnm, by decide⟩

theorem globMatch_dot_anchor (a : List Char) (p : List Char)
    (ha : ∀ ch ∈ a, ch ≠ '.' ∧ ch ≠ '*' ∧ ch ≠ '?') :
    ∀ (b : List Char) (s : List Char), (∀ ch ∈ b, ch ≠ '.') →
      globMatch (a ++ ('.' :: p)) (b ++ ('.' :: s)) = true →
      a = b ∧ globMatch p s = true := by
  induction a with
  | nil =>
    intro b s hb h
    cases b with
    | nil =>
      rw [List.nil_append, List.nil_append,
        globMatch_lit_cons _ _ (by decide) (by decide)] at h
      simp only [Bool.and_eq_true, decide_eq_true_eq] at h
      exact ⟨rfl, h.2⟩
    | cons d b' =>
      rw [List.nil_append, List.cons_append,
        globMatch_lit_cons _ _ (by decide) (by decide)] at h
      have hd : d ≠ '.' := hb d (List.mem_cons_self _ _)
      simp only [Bool.and_eq_true, decide_eq_true_eq] at h
      exact absurd h.1.symm hd
  | cons c a' ih =>
    intro b s hb h
    have hc := ha c (List.mem_cons_self _ _)
    cases b with
    | nil =>
      rw [List.cons_append, List.nil_append,
        globMatch_lit_cons _ _ hc.2.1 hc.2.2] at h
      simp only [Bool.and_eq_true, decide_eq_true_eq] at h
      exact absurd h.1 hc.1
    | cons d b' =>
      rw [List.cons_append, List.cons_append,
        globMatch_lit_cons _ _ hc.2.1 hc.2.2] at h
      simp only [Bool.and_eq_true, decide_eq_true_eq] at h
      obtain ⟨rfl, h'⟩ := h
      have hrec := ih (fun ch hch => ha ch (List.mem_cons_of_mem _ hch)) b' s
        (fun ch hch => hb ch (List.mem_cons_of_mem _ hch)) h'
      exact ⟨by rw [hrec.1], hrec.2⟩

theorem pattern_data (svc : String) :
    (svc ++ ".*.secret").data = svc.data ++ ('.' :: '*' :: ".secret".data) := by
  rw [String.data_append]

theorem filename_data (nm svc : String) :
    (getSecretFilename nm svc).data =
      svc.data ++ ('.' :: (nm.data ++ ".secret".data)) := by
  unfold getSecretFilename
  have hdot : (".".data : List Char) = ['.'] := by decide
  rw [String.data_append, String.data_append, String.data_append, hdot]
  simp [List.append_assoc]

theorem extractSecretName_filename (nm svc : String) :
    extractSecretName svc (getSecretFilename nm svc) = nm := by
  obtain ⟨sd⟩ := svc
  unfold extractSecretName
  rw [filename_data]
  have hdrop : ((String.mk sd).data ++ ('.' :: (nm.data ++ ".secret".data))).drop
      ((String.mk sd).length + 1) = nm.data ++ ".secret".data := by
    have hassoc : (String.mk sd).data ++ ('.' :: (nm.data ++ ".secret".data)) =
        (sd ++ ['.']) ++ (nm.data ++ ".secret".data) := by
      show sd ++ ('.' :: (nm.data ++ ".secret".data)) = _
      simp [List.append_assoc]
    rw [hassoc]
    have hlen : (String.mk sd).length + 1 = (sd ++ ['.']).length := by
      rw [List.length_append]
      rfl
    rw [hlen, List.drop_left]
  rw [hdrop]
  have hlen7 : (nm.data ++ ".secret".data).length - 7 = nm.data.length := by
    have h7 : (".secret".data : List Char).length = 7 := by decide
    rw [List.length_append, h7]
    omega
  rw [hlen7, List.take_left]

/-- C8 (amended): for service ids and secret names free of dots, path
separators and glob metacharacters, and a store produced by such
`SetSecret` calls, the claim holds: `SetSecret` then `GetSecret` returns
the stored value, a second `SetSecret` overwrites, and `ListSecrets svc`
is exactly the set of names stored for `svc`.  (The set-then-get and
overwrite laws hold for arbitrary names; only the `ListSecrets`
exactness needs the restriction, as `C8_counterexample` shows.) -/
theorem C8_secret_store_amended (fs : SecretsFS) (name svc v w : String)
    (hfs : fsWellFormed fs) ( _hn : cleanID name = true)
    (hs : cleanID svc = true) :
    GetSecret (SetSecret fs name svc v) name svc = .ok v ∧
    GetSecret (SetSecret (SetSecret fs name svc v) name svc w) name svc =
      .ok w ∧
    ∀ n, n ∈ ListSecrets fs svc ↔
      ∃ e ∈ fs, e.2.service_id = svc ∧ e.2.name = n := by
  refine ⟨?_, ?_, ?_⟩
  · unfold GetSecret SetSecret
    rw [lookupA_insertA_self]
  · unfold GetSecret SetSecret
    rw [lookupA_insertA_self]
  · intro n
    unfold ListSecrets
    rw [List.mem_filterMap]
    constructor
    · rintro ⟨base, hbase, hsome⟩
      rcases List.mem_map.mp hbase with ⟨e, he, rfl⟩
      obtain ⟨hkey, hen, hes⟩ := hfs e he
      by_cases hglob : globMatch (svc ++ ".*.secret").data e.1.data = true
      · rw [if_pos hglob] at hsome
        rw [hkey, pattern_data, filename_data] at hglob
        have hanchor := globMatch_dot_anchor svc.data ('*' :: ".secret".data)
          (fun ch hch => ⟨(cleanID_spec hs ch hch).1,
            (cleanID_spec hs ch hch).2.2.1, (cleanID_spec hs ch hch).2.2.2⟩)
          e.2.service_id.data (e.2.name.data ++ ".secret".data)
          (fun ch hch => (cleanID_spec hes ch hch).1) hglob
        have hsid : e.2.service_id = svc :=
          congrArg String.mk hanchor.1.symm
        refine ⟨e, he, hsid, ?_⟩
        rw [hkey, hsid] at hsome
        rw [extractSecretName_filename] at hsome
        exact Option.some.inj hsome
      · rw [if_neg hglob] at hsome
        cases hsome
    · rintro ⟨e, he, hsid, hname⟩
      obtain ⟨hkey, hen, hes⟩ := hfs e he
      refine ⟨e.1, List.mem_map_of_mem Prod.fst he, ?_⟩
      have hglob : globMatch (svc ++ ".*.secret").data e.1.data = true := by
        rw [hkey, hsid, pattern_data, filename_data]
        exact globMatch_filename_same svc.data e.2.name.data
          (fun ch hch => ⟨(cleanID_spec hs ch hch).2.2.1,
            (cleanID_spec hs ch hch).2.2.2⟩)
          (fun ch hch => (cleanID_spec hen ch hch).2.1)
      rw [if_pos hglob, hkey, hsid, extractSecretName_filename, hname]

/-- Witness for `C8_secret_store_amended` at concrete clean inputs. -/
theorem C8_secret_store_amended_witness :
    GetSecret (SetSecret [] "token" "s1" "v1") "token" "s1" = .ok "v1" ∧
    GetSecret (SetSecret (SetSecret [] "token" "s1" "v1") "token" "s1" "v2")
      "token" "s1" = .ok "v2" ∧
    ("token" ∈ ListSecrets (SetSecret [] "token" "s1" "v1") "s1" ↔
      ∃ e ∈ SetSecret [] "token" "s1" "v1",
        e.2.service_id = "s1" ∧ e.2.name = "token") := by
  have h0 := C8_secret_store_amended [] "token" "s1" "v1" "v2"
    (by intro e he; cases he) (by decide) (by decide)
  have h1 := C8_secret_store_amended (SetSecret [] "token" "s1" "v1")
    "token" "s1" "v1" "v2"
    (by
      intro e he
      simp only [SetSecret, insertA, getSecretFilename] at he
      simp only [List.mem_singleton] at he
      subst he
      exact ⟨by decide, by decide, by decide⟩)
    (by decide) (by decide)
  exact ⟨h0.1, h0.2.1, h1.2.2 "token"⟩

end PotatoCloud
